import Mathlib

/-!
Shallow embedding of the Farm Game repository.

The repository's `src` holds the GUI controller/view file `farm_game.py`
(classes `InfoBar`, `FarmView`, `ItemView`, `FarmGame`).  The simulation
model (`model.py`: `FarmModel`, `Player`, the `Plant` classes), the
configuration module (`constants.py`) and the support module are imported
by that file but are not part of `src`; where a definition below embeds
one of those missing modules it is modelled from the specification and its
doc comment says so.  Definitions embedding `farm_game.py` are translated
directly from that source.
-/

namespace FarmGame

/-! Section: Configuration constants (`constants.py`, not in src) -/

/-- Modelled from the spec: `constants.py` is missing from src.  Map tile
codes are single characters; the view in `farm_game.py` renders `'G'` as
grass, `'S'` as soil and `'U'` as untilled soil, and the spec requires
planting to happen only on tilled soil, with tilling converting untilled
soil to tilled soil.  `GRASS` is the grass code. -/
def GRASS : Char := 'G'

/-- Modelled from the spec: the code of untilled soil (rendered by the
view with the untilled-soil image). -/
def UNTILLED : Char := 'U'

/-- Modelled from the spec: the constant `SOIL` compared against by the
controller's planting guard; it is the code of tilled, plantable soil
(rendered by the view with the plain soil image), the tile kind the spec
calls TilledSoil. -/
def SOIL : Char := 'S'

/-- Modelled from the spec: the maximum energy constant; the spec's
example uses 100. -/
def MAX_ENERGY : Nat := 100

/-- Modelled from the spec: the per-action energy cost table is
configuration; movement costs one unit, and tilling/untilling are
performed after an energy-cost check.  The exact numbers are unspecified
configuration values. -/
def MOVE_COST : Nat := 1

/-- Modelled from the spec: energy cost of tilling (unspecified
configuration value). -/
def TILL_COST : Nat := 1

/-- Modelled from the spec: energy cost of untilling (unspecified
configuration value). -/
def UNTILL_COST : Nat := 1

/-- Modelled from the spec: the list of item names the game knows; three
seed kinds and their three produce kinds. -/
def ITEMS : List String :=
  ["Potato Seed", "Kale Seed", "Berry Seed", "Potato", "Kale", "Berry"]

/-- Modelled from the spec: the seed item names. -/
def SEEDS : List String := ["Potato Seed", "Kale Seed", "Berry Seed"]

/-- Modelled from the spec: the static buy-price table; only seeds are
purchasable (the controller shows `Buy price: $N/A` for items outside this
table).  Prices are unspecified configuration values. -/
def BUY_PRICES : List (String × Nat) :=
  [("Potato Seed", 10), ("Kale Seed", 15), ("Berry Seed", 20)]

/-- Modelled from the spec: the static sell-price table, which covers all
items.  Prices are unspecified configuration values. -/
def SELL_PRICES : List (String × Nat) :=
  [("Potato Seed", 5), ("Kale Seed", 7), ("Berry Seed", 10),
   ("Potato", 25), ("Kale", 35), ("Berry", 45)]

/-- Lookup in a static price table (Python `TABLE[name]`, as an `Option`
to make the `KeyError` case explicit). -/
def priceLookup (table : List (String × Nat)) (name : String) : Option Nat :=
  match table with
  | [] => none
  | (k, v) :: rest => if k = name then some v else priceLookup rest name

/-- Key-presence in a static price table (Python `name in TABLE`). -/
def priceHasKey (table : List (String × Nat)) (name : String) : Bool :=
  match table with
  | [] => false
  | (k, _) :: rest => if k = name then true else priceHasKey rest name

/-! Section: Plants (`model.py`, not in src) -/

/-- Modelled from the spec: the three crop variants. -/
inductive PlantKind : Type
  | potato
  | kale
  | berry
deriving DecidableEq, Repr

/-- Modelled from the spec: per-variant number of the final growth stage;
the spec's scenario assumes Potato's is 5, the others are unspecified
configuration values. -/
def maxStage : PlantKind → Nat
  | .potato => 5
  | .kale => 4
  | .berry => 6

/-- Modelled from the spec: Berry is the multi-harvest variant; Potato and
Kale are single-harvest. -/
def isMultiHarvest : PlantKind → Bool
  | .potato => false
  | .kale => false
  | .berry => true

/-- Modelled from the spec: the variant-defined regrowth stage a Berry
plant returns to after a harvest (an unspecified configuration value below
the final stage). -/
def regrowthStage : PlantKind → Nat
  | .potato => 0
  | .kale => 0
  | .berry => 4

/-- Modelled from the spec: per-variant harvest yield `(item, qty)`
(unspecified configuration values). -/
def plantYield : PlantKind → String × Nat
  | .potato => ("Potato", 1)
  | .kale => ("Kale", 1)
  | .berry => ("Berry", 1)

/-- Modelled from the spec: a Plant is a variant fixed at creation plus a
growth-stage counter. -/
structure Plant : Type where
  kind : PlantKind
  stage : Nat
deriving DecidableEq, Repr

/-- Modelled from the spec: `grow()` advances one stage, saturating at the
variant's final stage; called once per day-advance for every plant. -/
def Plant.grow (p : Plant) : Plant :=
  { p with stage := min (p.stage + 1) (maxStage p.kind) }

/-- Modelled from the spec: a plant is harvestable only at its final
stage. -/
def Plant.harvestable (p : Plant) : Bool :=
  p.stage = maxStage p.kind

/-! Section: Inventory (`model.py`, not in src) -/

/-- An inventory is a finite mapping from item name to count, embedded as
an association list; absence of a key means zero. -/
abbrev Inventory := List (String × Nat)

/-- Quantity held of an item (`Option` distinguishes a missing key, since
the controller tests key presence with Python `in`). -/
def invLookup (inv : Inventory) (name : String) : Option Nat :=
  match inv with
  | [] => none
  | (k, v) :: rest => if k = name then some v else invLookup rest name

/-- Python `name in inventory`: key presence, regardless of the count. -/
def invHasKey (inv : Inventory) (name : String) : Bool :=
  match inv with
  | [] => false
  | (k, _) :: rest => if k = name then true else invHasKey rest name

/-- Modelled from the spec: `add(item, qty)` increments the holding and
always succeeds (creating the entry when absent). -/
def invAdd (inv : Inventory) (name : String) (qty : Nat) : Inventory :=
  match inv with
  | [] => [(name, qty)]
  | (k, v) :: rest =>
      if k = name then (k, v + qty) :: rest else (k, v) :: invAdd rest name qty

/-- Modelled from the spec: `remove(item, qty)` fails (returns false, no
mutation) when the current holding is below `qty`; otherwise it decrements,
and a holding reaching exactly 0 remains a valid (empty) entry. -/
def invRemove (inv : Inventory) (name : String) (qty : Nat) :
    Bool × Inventory :=
  match inv with
  | [] => (false, [])
  | (k, v) :: rest =>
      if k = name then
        if qty ≤ v then (true, (k, v - qty) :: rest)
        else (false, (k, v) :: rest)
      else
        ((invRemove rest name qty).1, (k, v) :: (invRemove rest name qty).2)

/-! Section: Player (`model.py`, not in src) -/

/-- Modelled from the spec: movement directions (last movement direction,
used only for display). -/
inductive Dir : Type
  | up
  | down
  | left
  | right
deriving DecidableEq, Repr

/-- Modelled from the spec: the `UP` direction constant. -/
def UP : Dir := .up

/-- Modelled from the spec: the `DOWN` direction constant. -/
def DOWN : Dir := .down

/-- Modelled from the spec: the `LEFT` direction constant. -/
def LEFT : Dir := .left

/-- Modelled from the spec: the `RIGHT` direction constant. -/
def RIGHT : Dir := .right

/-- Modelled from the spec: the player's state — position, facing
direction, energy, money, inventory and currently selected item. -/
structure Player : Type where
  position : Nat × Nat
  direction : Dir
  energy : Nat
  money : Nat
  inventory : Inventory
  selected : Option String
deriving DecidableEq, Repr

/-- Modelled from the spec: `select_item` sets `selected_item` with no
validation; any string is accepted. -/
def Player.select_item (pl : Player) (name : String) : Player :=
  { pl with selected := some name }

/-- Modelled from the spec: `add_item((name, qty))` delegates to the
inventory `add`. -/
def Player.add_item (pl : Player) (item : String × Nat) : Player :=
  { pl with inventory := invAdd pl.inventory item.1 item.2 }

/-- Modelled from the spec: `remove_item((name, qty))` delegates to the
inventory `remove`; it fails (no mutation) on insufficient holding. -/
def Player.remove_item (pl : Player) (item : String × Nat) :
    Bool × Player :=
  ((invRemove pl.inventory item.1 item.2).1,
   { pl with inventory := (invRemove pl.inventory item.1 item.2).2 })

/-- Modelled from the spec: `buy(item, unit_price)` requires the item to
be purchasable and affordable; on success money decreases by the price and
the holding increments, otherwise it is a no-op returning false. -/
def Player.buy (pl : Player) (name : String) (price : Nat) :
    Bool × Player :=
  if priceHasKey BUY_PRICES name ∧ price ≤ pl.money then
    (true, { pl with money := pl.money - price,
                     inventory := invAdd pl.inventory name 1 })
  else (false, pl)

/-- Modelled from the spec: `sell(item, unit_price)` requires at least one
unit in stock; on success the holding decrements and money increases by
the price, otherwise it is a no-op returning false. -/
def Player.sell (pl : Player) (name : String) (price : Nat) :
    Bool × Player :=
  if 1 ≤ (invLookup pl.inventory name).getD 0 then
    (true, { pl with money := pl.money + price,
                     inventory := (invRemove pl.inventory name 1).2 })
  else (false, pl)

/-! Section: Grid (`model.py`, not in src) -/

/-- The farm map: a list of rows of tile-code characters (the result of
reading the map file). -/
abbrev FarmMap := List (List Char)

/-- The tile code at a position, `none` when out of bounds. -/
def tileAt (m : FarmMap) (pos : Nat × Nat) : Option Char :=
  (m.get? pos.1).bind fun row => row.get? pos.2

/-- Replace the tile code at an in-bounds position (no-op out of
bounds). -/
def setTile (m : FarmMap) (pos : Nat × Nat) (c : Char) : FarmMap :=
  match m.get? pos.1 with
  | some row => m.set pos.1 (row.set pos.2 c)
  | none => m

/-- The map's dimensions `(rows, cols)`, taken from the first row (the
map file has equal-length rows). -/
def mapDims (m : FarmMap) : Nat × Nat :=
  (m.length, (m.headD []).length)

/-! Section: FarmModel (`model.py`, not in src) -/

/-- The plant map: position-to-Plant mapping, embedded as an association
list with at most one entry per position. -/
abbrev Plants := List ((Nat × Nat) × Plant)

/-- The plant at a position, if any. -/
def plantsLookup (ps : Plants) (pos : Nat × Nat) : Option Plant :=
  match ps with
  | [] => none
  | (q, p) :: rest => if q = pos then some p else plantsLookup rest pos

/-- Remove every entry at a position. -/
def plantsErase (ps : Plants) (pos : Nat × Nat) : Plants :=
  ps.filter fun e => decide (e.1 ≠ pos)

/-- Replace the plant stored at a position (identity when absent). -/
def plantsSet (ps : Plants) (pos : Nat × Nat) (p : Plant) : Plants :=
  ps.map fun e => if e.1 = pos then (e.1, p) else e

/-- Modelled from the spec: the top-level aggregate owning the grid, the
plant map, the player and the day counter. -/
structure FarmModel : Type where
  map : FarmMap
  plants : Plants
  player : Player
  days_elapsed : Nat
deriving DecidableEq, Repr

/-- Modelled from the spec: a fresh model built from a map description —
no plants, day counter at 1, player at the origin facing down with full
energy; starting money and inventory are configuration (the info bar shows
money 0 on day 1, and the player starts with a few seeds so the game can
progress). -/
def FarmModel.init (m : FarmMap) : FarmModel :=
  { map := m
    plants := []
    player :=
      { position := (0, 0)
        direction := DOWN
        energy := MAX_ENERGY
        money := 0
        inventory := [("Potato Seed", 5)]
        selected := none }
    days_elapsed := 1 }

/-- Modelled from the spec: the row/column displacement of each
direction. -/
def dirDelta : Dir → Int × Int
  | .up => (-1, 0)
  | .down => (1, 0)
  | .left => (0, -1)
  | .right => (0, 1)

/-- Modelled from the spec: the target cell of a move, `none` when it
falls outside the grid dimensions. -/
def moveTarget (pos : Nat × Nat) (d : Dir) (dims : Nat × Nat) :
    Option (Nat × Nat) :=
  let r : Int := (pos.1 : Int) + (dirDelta d).1
  let c : Int := (pos.2 : Int) + (dirDelta d).2
  if 0 ≤ r ∧ r < (dims.1 : Int) ∧ 0 ≤ c ∧ c < (dims.2 : Int) then
    some (r.toNat, c.toNat)
  else none

/-- Modelled from the spec: `move_player` delegates to the player's move —
it fails without effect when the target is out of bounds or energy is
already 0; on success it updates position and direction and consumes one
energy unit. -/
def FarmModel.move_player (m : FarmModel) (d : Dir) : FarmModel :=
  match moveTarget m.player.position d (mapDims m.map) with
  | none => m
  | some tgt =>
      if m.player.energy = 0 then m
      else
        { m with player :=
            { m.player with
                position := tgt
                direction := d
                energy := m.player.energy - MOVE_COST } }

/-- Modelled from the spec: `till_soil` delegates to the grid after an
energy-cost check; untilled soil becomes tilled soil on success, anything
else is a failure and a no-op. -/
def FarmModel.till_soil (m : FarmModel) (pos : Nat × Nat) :
    Bool × FarmModel :=
  if TILL_COST ≤ m.player.energy ∧ tileAt m.map pos = some UNTILLED then
    (true,
      { m with
          map := setTile m.map pos SOIL
          player := { m.player with energy := m.player.energy - TILL_COST } })
  else (false, m)

/-- Modelled from the spec: `untill_soil` is the symmetric inverse of
`till_soil`; on success, a Plant currently at the position is removed, so
that no plant persists on untilled ground. -/
def FarmModel.untill_soil (m : FarmModel) (pos : Nat × Nat) :
    Bool × FarmModel :=
  if UNTILL_COST ≤ m.player.energy ∧ tileAt m.map pos = some SOIL then
    (true,
      { m with
          map := setTile m.map pos UNTILLED
          plants := plantsErase m.plants pos
          player := { m.player with energy := m.player.energy - UNTILL_COST } })
  else (false, m)

/-- Modelled from the spec: `add_plant(pos, plant)` fails when the tile at
`pos` is not tilled soil or a Plant already occupies `pos`; otherwise it
inserts the plant and returns success.  It does not touch the
inventory. -/
def FarmModel.add_plant (m : FarmModel) (pos : Nat × Nat) (p : Plant) :
    Bool × FarmModel :=
  if tileAt m.map pos = some SOIL ∧ plantsLookup m.plants pos = none then
    (true, { m with plants := (pos, p) :: m.plants })
  else (false, m)

/-- Modelled from the spec: `remove_plant` unconditionally removes the
plant at the position when present; no yield. -/
def FarmModel.remove_plant (m : FarmModel) (pos : Nat × Nat) : FarmModel :=
  { m with plants := plantsErase m.plants pos }

/-- Modelled from the spec: `harvest_plant` returns `none` without effect
when no plant is at the position or the plant is not at its final stage;
on success it returns the variant's yield, deleting a single-harvest plant
and resetting a multi-harvest plant to its regrowth stage. -/
def FarmModel.harvest_plant (m : FarmModel) (pos : Nat × Nat) :
    Option (String × Nat) × FarmModel :=
  match plantsLookup m.plants pos with
  | none => (none, m)
  | some p =>
      if p.harvestable then
        if isMultiHarvest p.kind then
          (some (plantYield p.kind),
            { m with plants :=
                plantsSet m.plants pos { p with stage := regrowthStage p.kind } })
        else
          (some (plantYield p.kind), { m with plants := plantsErase m.plants pos })
      else (none, m)

/-- Modelled from the spec: `new_day()` increments `days_elapsed`, grows
every plant one step and resets the player's energy to the maximum. -/
def FarmModel.new_day (m : FarmModel) : FarmModel :=
  { m with
      days_elapsed := m.days_elapsed + 1
      plants := m.plants.map fun e => (e.1, e.2.grow)
      player := { m.player with energy := MAX_ENERGY } }

/-- The collaborator-facing mutating surface of the model (one constructor
per operation of the spec's interface). -/
inductive Op : Type
  | move (d : Dir)
  | till (pos : Nat × Nat)
  | untill (pos : Nat × Nat)
  | addPlant (pos : Nat × Nat) (p : Plant)
  | removePlant (pos : Nat × Nat)
  | harvest (pos : Nat × Nat)
  | newDay
  | buy (name : String) (price : Nat)
  | sell (name : String) (price : Nat)
  | selectItem (name : String)
  | addItem (name : String) (qty : Nat)
  | removeItem (name : String) (qty : Nat)
deriving DecidableEq, Repr

/-- Apply one operation of the mutating surface to the model. -/
def applyOp (m : FarmModel) : Op → FarmModel
  | .move d => m.move_player d
  | .till pos => (m.till_soil pos).2
  | .untill pos => (m.untill_soil pos).2
  | .addPlant pos p => (m.add_plant pos p).2
  | .removePlant pos => m.remove_plant pos
  | .harvest pos => (m.harvest_plant pos).2
  | .newDay => m.new_day
  | .buy name price => { m with player := (m.player.buy name price).2 }
  | .sell name price => { m with player := (m.player.sell name price).2 }
  | .selectItem name => { m with player := m.player.select_item name }
  | .addItem name qty => { m with player := m.player.add_item (name, qty) }
  | .removeItem name qty =>
      { m with player := (m.player.remove_item (name, qty)).2 }

/-- The state after a sequence of operations. -/
def applyOps (m : FarmModel) (ops : List Op) : FarmModel :=
  ops.foldl applyOp m

/-! Section: The controller (`farm_game.py`, in src) -/

/-- Modelled from the spec: the three inventory colour constants from
`constants.py` are distinct configuration values; they are embedded as an
enumeration. -/
inductive Colour : Type
  | normal
  | highlighted
  | greyed
deriving DecidableEq, Repr

/-- Modelled from the spec: the background colour of an item view holding
a positive, unselected amount. -/
def INVENTORY_COLOUR : Colour := .normal

/-- Modelled from the spec: the background colour of the selected item
view. -/
def INVENTORY_SELECTED_COLOUR : Colour := .highlighted

/-- Modelled from the spec: the background colour of an empty item
view. -/
def INVENTORY_EMPTY_COLOUR : Colour := .greyed

/-- The displayed state of an `ItemView`: the item it shows and the
current background colours of its frame and label
(`farm_game.py`, class `ItemView`). -/
structure ItemView : Type where
  item_name : String
  frame_bg : Colour
  label_bg : Colour
deriving DecidableEq, Repr

/-- `ItemView.__init__` creates a Buy button exactly when the item name is
a key of `BUY_PRICES` (`farm_game.py` line 214). -/
def ItemView.hasBuyButton (item_name : String) : Bool :=
  priceHasKey BUY_PRICES item_name

/-- The unguarded `SELL_PRICES[item_name]` lookup performed by
`ItemView.__init__` and `ItemView.update` when building the label text
(`farm_game.py` lines 200 and 255), as an `Option` making the `KeyError`
case explicit. -/
def ItemView.sellPriceLabel (item_name : String) : Option Nat :=
  priceLookup SELL_PRICES item_name

/-- `ItemView.update` (`farm_game.py` lines 236-261): both the frame and
the label are recoloured — positive amount and selected gives the selected
colour, positive amount and not selected the plain inventory colour, and a
non-positive amount the empty colour. -/
def ItemView.update (iv : ItemView) (amount : Int) (selected : Bool) :
    ItemView :=
  if 0 < amount then
    if selected = false then
      { iv with frame_bg := INVENTORY_COLOUR, label_bg := INVENTORY_COLOUR }
    else
      { iv with frame_bg := INVENTORY_SELECTED_COLOUR,
                label_bg := INVENTORY_SELECTED_COLOUR }
  else
    { iv with frame_bg := INVENTORY_EMPTY_COLOUR,
              label_bg := INVENTORY_EMPTY_COLOUR }

/-- Drop the leading run of spaces from a character list. -/
def dropLeadingSpaces (cs : List Char) : List Char :=
  match cs with
  | [] => []
  | c :: rest => if c = ' ' then dropLeadingSpaces rest else c :: rest

/-- The leading run of non-space characters of a character list. -/
def takeWord (cs : List Char) : List Char :=
  match cs with
  | [] => []
  | c :: rest => if c = ' ' then [] else c :: takeWord rest

/-- Python `selected.split()[0]`: the first whitespace-separated word of
the string (item names separate words with single spaces). -/
def firstWord (s : String) : String :=
  String.mk (takeWord (dropLeadingSpaces s.data))

/-- The plant constructed by the `elif` chain of the planting branch
(`farm_game.py` lines 426-431): `none` when no branch matches — in the
source the local variable `plant` is then left unbound. -/
def plantFromName (plant_name : String) : Option Plant :=
  if plant_name = "Potato" then some { kind := .potato, stage := 0 }
  else if plant_name = "Kale" then some { kind := .kale, stage := 0 }
  else if plant_name = "Berry" then some { kind := .berry, stage := 0 }
  else none

/-- Python `self._player.get_selected_item() in self._player.get_inventory()`:
key presence of the selected item (`None` is never a key). -/
def selectedInInventory (m : FarmModel) : Bool :=
  match m.player.selected with
  | some s => invHasKey m.player.inventory s
  | none => false

/-- Python `self._player.get_selected_item() in SEEDS` against a given
seed list. -/
def selectedInSeeds (seeds : List String) (m : FarmModel) : Bool :=
  match m.player.selected with
  | some s => decide (s ∈ seeds)
  | none => false

/-- The model/player calls the planting branch can make, with their
results, in order. -/
inductive CtrlCall : Type
  | addPlantCall (result : Bool)
  | removeItemCall (result : Bool)
deriving DecidableEq, Repr

/-- A raised Python error. -/
inductive PyError : Type
  | unboundLocalError
deriving DecidableEq, Repr

/-- The `'p'` branch of `FarmGame.handle_keypress` (`farm_game.py` lines
417-439), parameterised by the configured seed list: guard on the tile
code at the player's position, then key presence of the selected item in
the inventory, then membership in the seed list; construct the plant from
the first word of the seed name (an unmatched name leaves `plant` unbound,
raising `UnboundLocalError` at the `add_plant` call); call `add_plant`,
and only when it returned `True` call `remove_item` for one unit of the
selected seed, ignoring its result.  Besides the final state, the ordered
list of model/player calls made is returned. -/
def pBranch (seeds : List String) (m : FarmModel) :
    Except PyError (FarmModel × List CtrlCall) :=
  if tileAt m.map m.player.position = some SOIL then
    if selectedInInventory m then
      if selectedInSeeds seeds m then
        match plantFromName (firstWord (m.player.selected.getD "")) with
        | some plant =>
            if (m.add_plant m.player.position plant).1 = true then
              .ok ({ (m.add_plant m.player.position plant).2 with player :=
                      ((m.add_plant m.player.position plant).2.player.remove_item
                        ((m.add_plant m.player.position plant).2.player.selected.getD "", 1)).2 },
                   [.addPlantCall true,
                    .removeItemCall
                      ((m.add_plant m.player.position plant).2.player.remove_item
                        ((m.add_plant m.player.position plant).2.player.selected.getD "", 1)).1])
            else .ok ((m.add_plant m.player.position plant).2, [.addPlantCall false])
        | none => .error .unboundLocalError
      else .ok (m, [])
    else .ok (m, [])
  else .ok (m, [])

/-- `FarmGame.handle_keypress` (`farm_game.py` lines 387-450): dispatch on
the event's keysym; any key outside the table is ignored.  (The final
`redraw` only reads the model.) -/
def handle_keypress (m : FarmModel) (keysym : String) :
    Except PyError FarmModel :=
  if keysym = "w" then .ok (m.move_player UP)
  else if keysym = "a" then .ok (m.move_player LEFT)
  else if keysym = "s" then .ok (m.move_player DOWN)
  else if keysym = "d" then .ok (m.move_player RIGHT)
  else if keysym = "t" then .ok (m.till_soil m.player.position).2
  else if keysym = "u" then .ok (m.untill_soil m.player.position).2
  else if keysym = "p" then Except.map Prod.fst (pBranch SEEDS m)
  else if keysym = "r" then .ok (m.remove_plant m.player.position)
  else if keysym = "h" then
    match (m.harvest_plant m.player.position).1 with
    | some y =>
        .ok { (m.harvest_plant m.player.position).2 with player :=
                (m.harvest_plant m.player.position).2.player.add_item y }
    | none => .ok (m.harvest_plant m.player.position).2
  else .ok m

/-- `FarmGame.select_item` (`farm_game.py` lines 452-475): after view-only
updates it calls `player.select_item(item_name)` unconditionally. -/
def select_item (m : FarmModel) (item_name : String) : FarmModel :=
  { m with player := m.player.select_item item_name }

/-- `FarmGame.buy_item` (`farm_game.py` lines 477-485): an unguarded
`BUY_PRICES[item_name]` lookup (`none` embeds the `KeyError` case) and a
delegation to `player.buy`. -/
def buy_item (m : FarmModel) (item_name : String) : Option FarmModel :=
  match priceLookup BUY_PRICES item_name with
  | none => none
  | some price => some { m with player := (m.player.buy item_name price).2 }

/-- `FarmGame.sell_item` (`farm_game.py` lines 487-498): an unguarded
`SELL_PRICES[item_name]` lookup (`none` embeds the `KeyError` case) and a
delegation to `player.sell`. -/
def sell_item (m : FarmModel) (item_name : String) : Option FarmModel :=
  match priceLookup SELL_PRICES item_name with
  | none => none
  | some price => some { m with player := (m.player.sell item_name price).2 }

/-! Section: Concrete states used to evaluate the definitions -/

/-- A one-cell tilled-soil state whose player has selected a Potato Seed
held at the given quantity. -/
def seedState (qty : Nat) : FarmModel :=
  { map := [['S']]
    plants := []
    player :=
      { position := (0, 0)
        direction := DOWN
        energy := 100
        money := 0
        inventory := [("Potato Seed", qty)]
        selected := some "Potato Seed" }
    days_elapsed := 1 }

/-- A one-cell tilled-soil state whose player has selected a held
hypothetical seed named `Wheat Seed`. -/
def wheatState : FarmModel :=
  { map := [['S']]
    plants := []
    player :=
      { position := (0, 0)
        direction := DOWN
        energy := 100
        money := 0
        inventory := [("Wheat Seed", 3)]
        selected := some "Wheat Seed" }
    days_elapsed := 1 }

/-- A one-cell tilled-soil state with a fully grown potato plant under the
player. -/
def ripePotatoState : FarmModel :=
  { map := [['S']]
    plants := [((0, 0), { kind := .potato, stage := 5 })]
    player :=
      { position := (0, 0)
        direction := DOWN
        energy := 100
        money := 0
        inventory := []
        selected := none }
    days_elapsed := 1 }

/-! Section: Predicates used in the statements -/

/-- The cross-component invariant: every key of the plant map refers to a
position whose tile is tilled soil. -/
def plantsOnTilled (m : FarmModel) : Prop :=
  ∀ e ∈ m.plants, tileAt m.map e.1 = some SOIL

/-- The three nested guards of the planting branch: tilled soil under the
player, selected item a key of the inventory, selected item in the seed
list. -/
def pGuard (seeds : List String) (m : FarmModel) : Prop :=
  tileAt m.map m.player.position = some SOIL ∧
    selectedInInventory m = true ∧ selectedInSeeds seeds m = true

instance (m : FarmModel) : Decidable (plantsOnTilled m) :=
  List.decidableBAll _ m.plants

instance (seeds : List String) (m : FarmModel) : Decidable (pGuard seeds m) :=
  instDecidableAnd

/-! Section: Inventory lemmas -/

theorem invHasKey_eq_isSome (inv : Inventory) (name : String) :
    invHasKey inv name = (invLookup inv name).isSome := by
  induction inv with
  | nil => rfl
  | cons e rest ih =>
      obtain ⟨k, v⟩ := e
      by_cases h : k = name <;> simp [invHasKey, invLookup, h, ih]

theorem invRemove_fst (inv : Inventory) (name : String) (qty : Nat)
    (hq : 1 ≤ qty) :
    (invRemove inv name qty).1 = decide (qty ≤ (invLookup inv name).getD 0) := by
  induction inv with
  | nil =>
      have h0 : ¬ qty ≤ 0 := by omega
      simp [invRemove, invLookup, h0]
  | cons e rest ih =>
      obtain ⟨k, v⟩ := e
      by_cases h : k = name
      · by_cases h2 : qty ≤ v <;> simp [invRemove, invLookup, h, h2]
      · simp [invRemove, invLookup, h, ih]

theorem invRemove_snd_of_fail (inv : Inventory) (name : String) (qty : Nat)
    (h : (invRemove inv name qty).1 = false) :
    (invRemove inv name qty).2 = inv := by
  induction inv with
  | nil => rfl
  | cons e rest ih =>
      obtain ⟨k, v⟩ := e
      by_cases hk : k = name
      · by_cases h2 : qty ≤ v
        · simp [invRemove, hk, h2] at h
        · simp [invRemove, hk, h2]
      · simp only [invRemove, hk, if_false, if_neg hk] at h ⊢
        rw [ih h]

theorem invRemove_lookup_self (inv : Inventory) (name : String) (qty v : Nat)
    (hv : invLookup inv name = some v) (hle : qty ≤ v) :
    (invRemove inv name qty).1 = true ∧
      invLookup (invRemove inv name qty).2 name = some (v - qty) := by
  induction inv with
  | nil => simp [invLookup] at hv
  | cons e rest ih =>
      obtain ⟨k, w⟩ := e
      by_cases hk : k = name
      · simp only [invLookup, if_pos hk, Option.some.injEq] at hv
        subst hv
        simp [invRemove, hk, hle, invLookup]
      · simp only [invLookup, if_neg hk] at hv
        obtain ⟨ih1, ih2⟩ := ih hv
        simp [invRemove, hk, ih1, invLookup, ih2]

theorem invRemove_lookup_other (inv : Inventory) (name other : String)
    (qty : Nat) (hne : other ≠ name) :
    invLookup (invRemove inv name qty).2 other = invLookup inv other := by
  induction inv with
  | nil => rfl
  | cons e rest ih =>
      obtain ⟨k, w⟩ := e
      by_cases hk : k = name
      · have hno : ¬ name = other := fun e2 => hne e2.symm
        by_cases h2 : qty ≤ w <;> simp [invRemove, hk, h2, invLookup, hno]
      · by_cases hko : k = other <;>
          simp [invRemove, hk, invLookup, hko, ih, hne]

/-! Section: Grid lemmas -/

theorem tileAt_setTile_self (m : FarmMap) (pos : Nat × Nat) (c c0 : Char)
    (h : tileAt m pos = some c0) :
    tileAt (setTile m pos c) pos = some c := by
  unfold tileAt at h ⊢
  unfold setTile
  cases hrow : m.get? pos.1 with
  | none => rw [hrow] at h; simp at h
  | some row =>
      rw [hrow] at h
      simp only [Option.some_bind] at h
      show (List.get? (List.set m pos.1 (row.set pos.2 c)) pos.1).bind
            (fun r => r.get? pos.2) = some c
      rw [List.get?_set_eq, hrow]
      simp only [Option.map_some, Option.some_bind]
      rw [List.get?_set_eq, h]
      rfl

theorem tileAt_setTile_ne (m : FarmMap) (pos q : Nat × Nat) (c : Char)
    (hne : q ≠ pos) :
    tileAt (setTile m pos c) q = tileAt m q := by
  unfold tileAt setTile
  cases hrow : m.get? pos.1 with
  | none => rfl
  | some row =>
      show (List.get? (List.set m pos.1 (row.set pos.2 c)) q.1).bind
            (fun r => r.get? q.2) = (List.get? m q.1).bind fun r => r.get? q.2
      by_cases h1 : q.1 = pos.1
      · have h2 : ¬ pos.2 = q.2 := fun h2 =>
          hne (Prod.ext_iff.mpr ⟨h1, h2.symm⟩)
        rw [h1, List.get?_set_eq, hrow]
        simp only [Option.map_some, Option.some_bind]
        rw [List.get?_set_ne _ _ h2]
      · rw [List.get?_set_ne _ _ fun e => h1 e.symm]

/-! Section: Plant-map lemmas -/

theorem plantsLookup_erase (ps : Plants) (pos q : Nat × Nat) :
    plantsLookup (plantsErase ps pos) q =
      if q = pos then none else plantsLookup ps q := by
  induction ps with
  | nil => simp [plantsErase, plantsLookup]
  | cons e rest ih =>
      obtain ⟨k, pl⟩ := e
      by_cases hk : k = pos
      · rw [show plantsErase ((k, pl) :: rest) pos = plantsErase rest pos from
            by simp [plantsErase, List.filter_cons, hk]]
        rw [ih]
        by_cases hq : q = pos
        · simp [hq]
        · have hkq : ¬ k = q := fun h2 => hq (h2.symm.trans hk)
          simp [plantsLookup, hq, hkq]
      · rw [show plantsErase ((k, pl) :: rest) pos
              = (k, pl) :: plantsErase rest pos from
            by simp [plantsErase, List.filter_cons, hk]]
        by_cases hkq : k = q
        · have hq : ¬ q = pos := fun h2 => hk (hkq.trans h2)
          simp [plantsLookup, hkq, hq]
        · simp [plantsLookup, hkq, ih]

theorem plantsLookup_set (ps : Plants) (pos q : Nat × Nat) (p : Plant) :
    plantsLookup (plantsSet ps pos p) q =
      if q = pos then (plantsLookup ps pos).map fun _ => p
      else plantsLookup ps q := by
  induction ps with
  | nil => simp [plantsSet, plantsLookup]
  | cons e rest ih =>
      obtain ⟨k, pl⟩ := e
      by_cases hk : k = pos
      · rw [show plantsSet ((k, pl) :: rest) pos p
              = (k, p) :: plantsSet rest pos p from
            by simp [plantsSet, hk]]
        by_cases hq : q = pos
        · have hkq : k = q := hk.trans hq.symm
          simp [plantsLookup, hkq, hq, hk]
        · have hkq : ¬ k = q := fun h2 => hq (h2.symm.trans hk)
          simp [plantsLookup, hkq, hq, ih]
      · rw [show plantsSet ((k, pl) :: rest) pos p
              = (k, pl) :: plantsSet rest pos p from
            by simp [plantsSet, hk]]
        by_cases hkq : k = q
        · have hq : ¬ q = pos := fun h2 => hk (hkq.trans h2)
          simp [plantsLookup, hkq, hq]
        · by_cases hq : q = pos
          · subst hq
            simp [plantsLookup, hkq, ih]
          · simp [plantsLookup, hkq, hq, ih]

theorem plantsLookup_map_value (ps : Plants) (q : Nat × Nat)
    (f : Plant → Plant) :
    plantsLookup (ps.map fun e => (e.1, f e.2)) q =
      (plantsLookup ps q).map f := by
  induction ps with
  | nil => rfl
  | cons e rest ih =>
      by_cases he : e.1 = q <;> simp [plantsLookup, he, ih]

theorem mem_plantsErase (ps : Plants) (pos : Nat × Nat)
    (e : (Nat × Nat) × Plant) (h : e ∈ plantsErase ps pos) :
    e ∈ ps ∧ e.1 ≠ pos := by
  rw [plantsErase, List.mem_filter] at h
  exact ⟨h.1, by simpa using h.2⟩

theorem mem_plantsSet_key (ps : Plants) (pos : Nat × Nat) (p : Plant)
    (e : (Nat × Nat) × Plant) (h : e ∈ plantsSet ps pos p) :
    ∃ e0 ∈ ps, e.1 = e0.1 := by
  rw [plantsSet, List.mem_map] at h
  obtain ⟨e0, he0, heq⟩ := h
  refine ⟨e0, he0, ?_⟩
  by_cases hk : e0.1 = pos
  · rw [← heq]; simp [hk]
  · rw [← heq]; simp [hk]

theorem mem_map_grow_key (ps : Plants) (e : (Nat × Nat) × Plant)
    (h : e ∈ ps.map fun e0 => (e0.1, e0.2.grow)) :
    ∃ e0 ∈ ps, e.1 = e0.1 := by
  rw [List.mem_map] at h
  obtain ⟨e0, he0, heq⟩ := h
  exact ⟨e0, he0, by rw [← heq]⟩

/-! Section: Preservation of the tilled-soil invariant -/

theorem plantsOnTilled_applyOp (m : FarmModel) (op : Op)
    (h : plantsOnTilled m) : plantsOnTilled (applyOp m op) := by
  cases op with
  | move d =>
      simp only [applyOp]
      unfold FarmModel.move_player
      split
      · exact h
      · split
        · exact h
        · exact h
  | till pos =>
      simp only [applyOp]
      unfold FarmModel.till_soil
      split
      next hc =>
        intro e he2
        by_cases hep : e.1 = pos
        · rw [hep]; exact tileAt_setTile_self _ _ _ _ hc.2
        · rw [tileAt_setTile_ne _ _ _ _ hep]; exact h e he2
      next hc => exact h
  | untill pos =>
      simp only [applyOp]
      unfold FarmModel.untill_soil
      split
      next hc =>
        intro e he2
        obtain ⟨hmem, hne⟩ := mem_plantsErase _ _ _ he2
        rw [tileAt_setTile_ne _ _ _ _ hne]
        exact h e hmem
      next hc => exact h
  | addPlant pos p =>
      simp only [applyOp]
      unfold FarmModel.add_plant
      split
      next hc =>
        intro e he2
        rcases List.mem_cons.mp he2 with he3 | he3
        · rw [he3]; exact hc.1
        · exact h e he3
      next hc => exact h
  | removePlant pos =>
      simp only [applyOp]
      unfold FarmModel.remove_plant
      intro e he2
      exact h e (mem_plantsErase _ _ _ he2).1
  | harvest pos =>
      simp only [applyOp]
      unfold FarmModel.harvest_plant
      split
      · exact h
      · split
        · split
          · intro e he2
            obtain ⟨e0, he0, heq⟩ := mem_plantsSet_key _ _ _ _ he2
            rw [heq]; exact h e0 he0
          · intro e he2
            exact h e (mem_plantsErase _ _ _ he2).1
        · exact h
  | newDay =>
      simp only [applyOp]
      unfold FarmModel.new_day
      intro e he2
      obtain ⟨e0, he0, heq⟩ := mem_map_grow_key _ _ he2
      rw [heq]; exact h e0 he0
  | buy name price => exact h
  | sell name price => exact h
  | selectItem name => exact h
  | addItem name qty => exact h
  | removeItem name qty => exact h

theorem plantsOnTilled_applyOps (m : FarmModel) (ops : List Op)
    (h : plantsOnTilled m) : plantsOnTilled (applyOps m ops) := by
  induction ops generalizing m with
  | nil => exact h
  | cons op rest ih => exact ih _ (plantsOnTilled_applyOp m op h)

theorem priceHasKey_eq_isSome (t : List (String × Nat)) (name : String) :
    priceHasKey t name = (priceLookup t name).isSome := by
  induction t with
  | nil => rfl
  | cons e rest ih =>
      obtain ⟨k, v⟩ := e
      by_cases h : k = name <;> simp [priceHasKey, priceLookup, h, ih]

/-! Section: Characterisation of the planting branch -/

theorem selectedInSeeds_spec (seeds : List String) (m : FarmModel)
    (h : selectedInSeeds seeds m = true) :
    ∃ s, m.player.selected = some s ∧ s ∈ seeds := by
  unfold selectedInSeeds at h
  cases hs : m.player.selected with
  | none => rw [hs] at h; simp at h
  | some s =>
      rw [hs] at h
      simp only [decide_eq_true_eq] at h
      exact ⟨s, rfl, h⟩

theorem selectedInInventory_spec (m : FarmModel)
    (h : selectedInInventory m = true) :
    ∃ s, m.player.selected = some s ∧
      invHasKey m.player.inventory s = true := by
  unfold selectedInInventory at h
  cases hs : m.player.selected with
  | none => rw [hs] at h; simp at h
  | some s => rw [hs] at h; exact ⟨s, rfl, h⟩

theorem add_plant_player (m : FarmModel) (pos : Nat × Nat) (p : Plant) :
    (m.add_plant pos p).2.player = m.player := by
  unfold FarmModel.add_plant
  split <;> rfl

theorem pBranch_of_not_guard (seeds : List String) (m : FarmModel)
    (h : ¬ pGuard seeds m) : pBranch seeds m = .ok (m, []) := by
  unfold pBranch
  by_cases h1 : tileAt m.map m.player.position = some SOIL
  · rw [if_pos h1]
    by_cases h2 : selectedInInventory m = true
    · rw [if_pos h2]
      by_cases h3 : selectedInSeeds seeds m = true
      · exact absurd ⟨h1, h2, h3⟩ h
      · rw [if_neg h3]
    · rw [if_neg h2]
  · rw [if_neg h1]

theorem pBranch_guard_some (seeds : List String) (m : FarmModel)
    (s : String) (plant : Plant)
    (hg : pGuard seeds m) (hs : m.player.selected = some s)
    (hpf : plantFromName (firstWord s) = some plant) :
    pBranch seeds m =
      if (m.add_plant m.player.position plant).1 = true then
        .ok ({ (m.add_plant m.player.position plant).2 with player :=
                ((m.add_plant m.player.position plant).2.player.remove_item
                  ((m.add_plant m.player.position plant).2.player.selected.getD
                    "", 1)).2 },
             [.addPlantCall true,
              .removeItemCall
                ((m.add_plant m.player.position plant).2.player.remove_item
                  ((m.add_plant m.player.position plant).2.player.selected.getD
                    "", 1)).1])
      else .ok ((m.add_plant m.player.position plant).2,
                [.addPlantCall false]) := by
  unfold pBranch
  rw [if_pos hg.1, if_pos hg.2.1, if_pos hg.2.2, hs]
  simp only [Option.getD_some]
  rw [hpf]

theorem harvest_plant_player (m : FarmModel) (pos : Nat × Nat) :
    (m.harvest_plant pos).2.player = m.player := by
  unfold FarmModel.harvest_plant
  split
  · rfl
  · split
    · split <;> rfl
    · rfl

theorem move_player_plants (m : FarmModel) (d : Dir) :
    (m.move_player d).plants = m.plants := by
  unfold FarmModel.move_player
  split
  · rfl
  · split <;> rfl

theorem till_soil_plants (m : FarmModel) (pos : Nat × Nat) :
    (m.till_soil pos).2.plants = m.plants := by
  unfold FarmModel.till_soil
  split <;> rfl

theorem regrowthStage_le_maxStage (k : PlantKind) :
    regrowthStage k ≤ maxStage k := by
  cases k <;> decide

theorem stage_le_of_same (ps : Plants) (pos : Nat × Nat) (p p' : Plant)
    (h1 : plantsLookup ps pos = some p)
    (h2 : plantsLookup ps pos = some p') : p'.stage ≤ p.stage := by
  rw [h1] at h2
  simp only [Option.some.injEq] at h2
  rw [h2]

theorem pBranch_guard_none (seeds : List String) (m : FarmModel) (s : String)
    (hg : pGuard seeds m) (hs : m.player.selected = some s)
    (hpf : plantFromName (firstWord s) = none) :
    pBranch seeds m = .error .unboundLocalError := by
  unfold pBranch
  rw [if_pos hg.1, if_pos hg.2.1, if_pos hg.2.2, hs]
  simp only [Option.getD_some]
  rw [hpf]

/-! Section: Claim theorems -/

/-- C2: the planting branch constructs a Plant and calls `add_plant` only
when the tile at the player's position carries the tilled-soil code and
the selected item is a seed present (as a key) in the inventory; whenever
any of these guards fails, no call is made and the state is returned
unchanged with an empty call trace. -/
theorem add_plant_called_only_on_tilled_seed :
    (∀ (m out : FarmModel) (calls : List CtrlCall) (r : Bool),
        pBranch SEEDS m = .ok (out, calls) →
        CtrlCall.addPlantCall r ∈ calls → pGuard SEEDS m) ∧
    (∀ m : FarmModel, ¬ pGuard SEEDS m → pBranch SEEDS m = .ok (m, [])) := by
  constructor
  · intro m out calls r hok hmem
    by_cases hg : pGuard SEEDS m
    · exact hg
    · rw [pBranch_of_not_guard SEEDS m hg] at hok
      simp only [Except.ok.injEq, Prod.mk.injEq] at hok
      rw [← hok.2] at hmem
      simp at hmem
  · exact fun m => pBranch_of_not_guard SEEDS m

/-- Witness for C2: the planting state with five seeds satisfies the
guards, recovered from the branch's successful call trace. -/
theorem add_plant_called_only_on_tilled_seed_witness :
    pGuard SEEDS (seedState 5) :=
  add_plant_called_only_on_tilled_seed.1 (seedState 5)
    { seedState 5 with
        plants := [((0, 0), { kind := .potato, stage := 0 })],
        player := { (seedState 5).player with
                      inventory := [("Potato Seed", 4)] } }
    [CtrlCall.addPlantCall true, CtrlCall.removeItemCall true] true
    (by rfl) (by decide)

/-- C9: the planting branch binds its `plant` local only when the first
word of the selected seed name is Potato, Kale or Berry; when every
configured seed starts with one of these words the unbound-variable error
is unreachable, while a configuration containing a seed outside this set
reaches it (shown at `Wheat Seed`). -/
theorem planting_unbound_variable :
    (∀ w : String, (plantFromName w).isSome = true ↔
        w ∈ ["Potato", "Kale", "Berry"]) ∧
    (∀ seeds : List String,
        (∀ s ∈ seeds, firstWord s ∈ ["Potato", "Kale", "Berry"]) →
        ∀ m : FarmModel, pBranch seeds m ≠ .error .unboundLocalError) ∧
    pBranch ["Wheat Seed"] wheatState = .error .unboundLocalError := by
  refine ⟨?_, ?_, by rfl⟩
  · intro w
    unfold plantFromName
    by_cases h1 : w = "Potato"
    · simp [h1]
    · by_cases h2 : w = "Kale"
      · simp [h1, h2]
      · by_cases h3 : w = "Berry"
        · simp [h1, h2, h3]
        · simp [h1, h2, h3]
  · intro seeds hpre m
    by_cases hg : pGuard seeds m
    · obtain ⟨s, hs, hsin⟩ := selectedInSeeds_spec seeds m hg.2.2
      cases hpf : plantFromName (firstWord s) with
      | none =>
          have hw := hpre s hsin
          simp only [List.mem_cons, List.not_mem_nil, or_false] at hw
          rcases hw with h | h | h <;> rw [h] at hpf <;>
            simp [plantFromName] at hpf
      | some plant =>
          rw [pBranch_guard_some seeds m s plant hg hs hpf]
          split <;> simp
    · rw [pBranch_of_not_guard seeds m hg]
      simp

/-- Witness for C9: the configured seed list satisfies the precondition,
so the planting branch never raises on the five-seed state. -/
theorem planting_unbound_variable_witness :
    (∀ s ∈ SEEDS, firstWord s ∈ ["Potato", "Kale", "Berry"]) ∧
    pBranch SEEDS (seedState 5) ≠ .error .unboundLocalError :=
  ⟨by decide, planting_unbound_variable.2.1 SEEDS (by decide) (seedState 5)⟩

/-- C1 counterexample: at the concrete tilled-soil state whose selected
Potato Seed is a key of the inventory with quantity 0, the planting
branch's `add_plant` call returns True and inserts the plant, yet no unit
of the seed is removed — the inventory is unchanged, refuting the claimed
equivalence between a True `add_plant` result and the removal of exactly
one unit. -/
theorem planting_consumes_seed_counterexample :
    (pBranch SEEDS (seedState 0)).map Prod.snd =
      .ok [CtrlCall.addPlantCall true, CtrlCall.removeItemCall false] ∧
    (pBranch SEEDS (seedState 0)).map (fun r => r.1.player.inventory) =
      .ok [("Potato Seed", 0)] ∧
    (pBranch SEEDS (seedState 0)).map
        (fun r => plantsLookup r.1.plants (0, 0)) =
      .ok (some { kind := PlantKind.potato, stage := 0 }) ∧
    (seedState 0).player.inventory = [("Potato Seed", 0)] :=
  ⟨by rfl, by rfl, by rfl, by rfl⟩

/-- C1 (amended): on a `'p'` keypress the seed-removal call never
precedes the `add_plant` call — the call trace is empty, a single failed
`add_plant`, or an `add_plant` returning True followed by one
`remove_item` call; at most one unit of the selected seed is removed, and
exactly one unit is removed precisely when `add_plant` returned True and
the inventory held at least one unit of the seed; in every other case,
including a present-but-zero holding whose removal fails silently, the
inventory is unchanged. -/
theorem planting_consumes_seed_amended (m out : FarmModel)
    (calls : List CtrlCall) (hok : pBranch SEEDS m = .ok (out, calls)) :
    (calls = [] ∨ calls = [CtrlCall.addPlantCall false] ∨
      ∃ r, calls = [CtrlCall.addPlantCall true,
                    CtrlCall.removeItemCall r]) ∧
    (calls ≠ [CtrlCall.addPlantCall true, CtrlCall.removeItemCall true] →
      out.player.inventory = m.player.inventory) ∧
    (∀ r, calls = [CtrlCall.addPlantCall true, CtrlCall.removeItemCall r] →
      ∃ s, m.player.selected = some s ∧
        (r = true ↔ 1 ≤ (invLookup m.player.inventory s).getD 0)) ∧
    (calls = [CtrlCall.addPlantCall true, CtrlCall.removeItemCall true] →
      ∃ s v, m.player.selected = some s ∧
        invLookup m.player.inventory s = some v ∧ 1 ≤ v ∧
        invLookup out.player.inventory s = some (v - 1) ∧
        ∀ other, other ≠ s →
          invLookup out.player.inventory other =
            invLookup m.player.inventory other) := by
  by_cases hg : pGuard SEEDS m
  · obtain ⟨s, hs, hsin⟩ := selectedInSeeds_spec SEEDS m hg.2.2
    cases hpf : plantFromName (firstWord s) with
    | none =>
        rw [pBranch_guard_none SEEDS m s hg hs hpf] at hok
        simp at hok
    | some plant =>
        rw [pBranch_guard_some SEEDS m s plant hg hs hpf] at hok
        have hap : (m.add_plant m.player.position plant).2.player = m.player :=
          add_plant_player m m.player.position plant
        by_cases hadd : (m.add_plant m.player.position plant).1 = true
        · rw [if_pos hadd] at hok
          simp only [Except.ok.injEq, Prod.mk.injEq] at hok
          obtain ⟨hout, hcalls⟩ := hok
          subst hout
          subst hcalls
          rw [hap, hs]
          simp only [Option.getD_some, Player.remove_item]
          refine ⟨Or.inr (Or.inr ⟨_, rfl⟩), ?_, ?_, ?_⟩
          · intro hne
            by_cases hr : (invRemove m.player.inventory s 1).1 = true
            · rw [hr] at hne
              exact absurd rfl hne
            · simp only [Bool.not_eq_true] at hr
              exact invRemove_snd_of_fail m.player.inventory s 1 hr
          · intro r hr
            simp only [List.cons.injEq, CtrlCall.removeItemCall.injEq,
              and_true, true_and] at hr
            refine ⟨s, rfl, ?_⟩
            rw [← hr, invRemove_fst m.player.inventory s 1 (le_refl 1)]
            simp
          · intro hr
            simp only [List.cons.injEq, CtrlCall.removeItemCall.injEq,
              and_true, true_and] at hr
            obtain ⟨s2, hs2, hk⟩ := selectedInInventory_spec m hg.2.1
            rw [hs] at hs2
            have hss : s2 = s := by
              simpa using hs2.symm
            subst hss
            rw [invHasKey_eq_isSome] at hk
            cases hv : invLookup m.player.inventory s2 with
            | none => rw [hv] at hk; simp at hk
            | some v =>
                have hle : 1 ≤ v := by
                  rw [invRemove_fst m.player.inventory s2 1 (le_refl 1),
                    hv] at hr
                  simpa using hr
                obtain ⟨-, hlook⟩ :=
                  invRemove_lookup_self m.player.inventory s2 1 v hv hle
                exact ⟨s2, v, rfl, hv, hle, hlook,
                  fun other hne =>
                    invRemove_lookup_other m.player.inventory s2 other 1 hne⟩
        · rw [if_neg hadd] at hok
          simp only [Except.ok.injEq, Prod.mk.injEq] at hok
          obtain ⟨hout, hcalls⟩ := hok
          subst hout
          subst hcalls
          refine ⟨Or.inr (Or.inl rfl), ?_, ?_, ?_⟩
          · intro _
            rw [hap]
          · intro r hr
            simp at hr
          · intro hr
            simp at hr
  · rw [pBranch_of_not_guard SEEDS m hg] at hok
    simp only [Except.ok.injEq, Prod.mk.injEq] at hok
    obtain ⟨hout, hcalls⟩ := hok
    subst hout
    subst hcalls
    refine ⟨Or.inl rfl, fun _ => rfl, ?_, ?_⟩
    · intro r hr
      simp at hr
    · intro hr
      simp at hr

/-- Witness for C1 (amended) at the five-seed planting state: the trace
shape and the exact one-unit decrement. -/
theorem planting_consumes_seed_amended_witness :
    ([CtrlCall.addPlantCall true, CtrlCall.removeItemCall true] = ([] : List CtrlCall) ∨
      [CtrlCall.addPlantCall true, CtrlCall.removeItemCall true] =
        [CtrlCall.addPlantCall false] ∨
      ∃ r, [CtrlCall.addPlantCall true, CtrlCall.removeItemCall true] =
        [CtrlCall.addPlantCall true, CtrlCall.removeItemCall r]) ∧
    (∃ s v, (seedState 5).player.selected = some s ∧
      invLookup (seedState 5).player.inventory s = some v ∧ 1 ≤ v ∧
      invLookup
        ({ seedState 5 with
            plants := [((0, 0), { kind := .potato, stage := 0 })],
            player := { (seedState 5).player with
                          inventory := [("Potato Seed", 4)] } }).player.inventory
        s = some (v - 1) ∧
      ∀ other, other ≠ s →
        invLookup
          ({ seedState 5 with
              plants := [((0, 0), { kind := .potato, stage := 0 })],
              player := { (seedState 5).player with
                            inventory := [("Potato Seed", 4)] } }).player.inventory
          other = invLookup (seedState 5).player.inventory other) :=
  ⟨(planting_consumes_seed_amended (seedState 5)
      { seedState 5 with
          plants := [((0, 0), { kind := .potato, stage := 0 })],
          player := { (seedState 5).player with
                        inventory := [("Potato Seed", 4)] } }
      [CtrlCall.addPlantCall true, CtrlCall.removeItemCall true] (by rfl)).1,
   (planting_consumes_seed_amended (seedState 5)
      { seedState 5 with
          plants := [((0, 0), { kind := .potato, stage := 0 })],
          player := { (seedState 5).player with
                        inventory := [("Potato Seed", 4)] } }
      [CtrlCall.addPlantCall true, CtrlCall.removeItemCall true]
      (by rfl)).2.2.2 rfl⟩

/-- C4: on an `'h'` keypress the controller adds the pair returned by
`harvest_plant` to the player's inventory exactly when that result is not
`None`, and performs no inventory mutation when the result is `None`. -/
theorem harvest_result_controls_inventory (m : FarmModel) :
    ((m.harvest_plant m.player.position).1 = none →
        handle_keypress m "h" = .ok (m.harvest_plant m.player.position).2 ∧
        (m.harvest_plant m.player.position).2.player.inventory =
          m.player.inventory) ∧
    (∀ item qty, (m.harvest_plant m.player.position).1 = some (item, qty) →
        ∃ mf, handle_keypress m "h" = .ok mf ∧
          mf.player.inventory = invAdd m.player.inventory item qty) := by
  constructor
  · intro h0
    constructor
    · unfold handle_keypress
      rw [if_neg (by decide), if_neg (by decide), if_neg (by decide),
          if_neg (by decide), if_neg (by decide), if_neg (by decide),
          if_neg (by decide), if_neg (by decide), if_pos rfl, h0]
    · rw [harvest_plant_player]
  · intro item qty h1
    refine ⟨{ (m.harvest_plant m.player.position).2 with player :=
        (m.harvest_plant m.player.position).2.player.add_item (item, qty) },
      ?_, ?_⟩
    · unfold handle_keypress
      rw [if_neg (by decide), if_neg (by decide), if_neg (by decide),
          if_neg (by decide), if_neg (by decide), if_neg (by decide),
          if_neg (by decide), if_neg (by decide), if_pos rfl, h1]
    · show invAdd (m.harvest_plant m.player.position).2.player.inventory
          item qty = invAdd m.player.inventory item qty
      rw [harvest_plant_player]

/-- Witness for C4: the ripe-potato state harvests `("Potato", 1)` into
the inventory, and `seedState 5` (no plant under the player) harvests
nothing and keeps the inventory. -/
theorem harvest_result_controls_inventory_witness :
    (ripePotatoState.harvest_plant ripePotatoState.player.position).1 =
      some ("Potato", 1) ∧
    (∃ mf, handle_keypress ripePotatoState "h" = .ok mf ∧
      mf.player.inventory =
        invAdd ripePotatoState.player.inventory "Potato" 1) ∧
    ((seedState 5).harvest_plant (seedState 5).player.position).1 = none ∧
    (handle_keypress (seedState 5) "h" =
        .ok ((seedState 5).harvest_plant (seedState 5).player.position).2 ∧
      ((seedState 5).harvest_plant
          (seedState 5).player.position).2.player.inventory =
        (seedState 5).player.inventory) :=
  ⟨by rfl,
   (harvest_result_controls_inventory ripePotatoState).2 "Potato" 1 (by rfl),
   by rfl,
   (harvest_result_controls_inventory (seedState 5)).1 (by rfl)⟩

/-- C3: `new_day` increments `days_elapsed` by exactly 1, resets the
player's energy to the maximum regardless of its prior value, and
advances every plant's stage by exactly one, saturating at the variant's
final stage; no other operation of the model's surface increases the
player's energy or any existing plant's stage. -/
theorem new_day_sole_growth_and_reset :
    (∀ m : FarmModel,
        m.new_day.days_elapsed = m.days_elapsed + 1 ∧
        m.new_day.player.energy = MAX_ENERGY ∧
        ∀ pos, plantsLookup m.new_day.plants pos =
          (plantsLookup m.plants pos).map Plant.grow) ∧
    (∀ p : Plant, p.grow.stage = min (p.stage + 1) (maxStage p.kind)) ∧
    (∀ (m : FarmModel) (op : Op), op ≠ Op.newDay →
        (applyOp m op).player.energy ≤ m.player.energy ∧
        ∀ pos p p', plantsLookup m.plants pos = some p →
          plantsLookup (applyOp m op).plants pos = some p' →
          p'.stage ≤ p.stage) := by
  refine ⟨?_, fun p => rfl, ?_⟩
  · intro m
    exact ⟨rfl, rfl, fun pos => plantsLookup_map_value m.plants pos Plant.grow⟩
  · intro m op hne
    cases op with
    | newDay => exact absurd rfl hne
    | move d =>
        constructor
        · simp only [applyOp]
          unfold FarmModel.move_player
          split
          · exact le_refl _
          · split
            · exact le_refl _
            · exact Nat.sub_le _ _
        · intro pos p p' hp hp'
          simp only [applyOp] at hp'
          rw [move_player_plants] at hp'
          exact stage_le_of_same m.plants pos p p' hp hp'
    | till pos0 =>
        constructor
        · simp only [applyOp]
          unfold FarmModel.till_soil
          split
          · exact Nat.sub_le _ _
          · exact le_refl _
        · intro pos p p' hp hp'
          simp only [applyOp] at hp'
          rw [till_soil_plants] at hp'
          exact stage_le_of_same m.plants pos p p' hp hp'
    | untill pos0 =>
        constructor
        · simp only [applyOp]
          unfold FarmModel.untill_soil
          split
          · exact Nat.sub_le _ _
          · exact le_refl _
        · intro pos p p' hp hp'
          simp only [applyOp] at hp'
          unfold FarmModel.untill_soil at hp'
          split at hp'
          · rw [plantsLookup_erase] at hp'
            by_cases hpq : pos = pos0
            · rw [if_pos hpq] at hp'
              simp at hp'
            · rw [if_neg hpq] at hp'
              exact stage_le_of_same m.plants pos p p' hp hp'
          · exact stage_le_of_same m.plants pos p p' hp hp'
    | addPlant pos0 p0 =>
        constructor
        · simp only [applyOp]
          rw [add_plant_player]
        · intro pos p p' hp hp'
          simp only [applyOp] at hp'
          unfold FarmModel.add_plant at hp'
          split at hp'
          next hc =>
            by_cases hpq : pos0 = pos
            · rw [hpq] at hc
              rw [hc.2] at hp
              simp at hp
            · rw [show plantsLookup ((pos0, p0) :: m.plants) pos
                    = plantsLookup m.plants pos from by
                  simp [plantsLookup, hpq]] at hp'
              exact stage_le_of_same m.plants pos p p' hp hp'
          next hc => exact stage_le_of_same m.plants pos p p' hp hp'
    | removePlant pos0 =>
        constructor
        · simp only [applyOp]
          exact le_refl _
        · intro pos p p' hp hp'
          simp only [applyOp] at hp'
          unfold FarmModel.remove_plant at hp'
          rw [show ({ m with plants := plantsErase m.plants pos0 } :
                FarmModel).plants = plantsErase m.plants pos0 from rfl,
              plantsLookup_erase] at hp'
          by_cases hpq : pos = pos0
          · rw [if_pos hpq] at hp'
            simp at hp'
          · rw [if_neg hpq] at hp'
            exact stage_le_of_same m.plants pos p p' hp hp'
    | harvest pos0 =>
        constructor
        · simp only [applyOp]
          rw [harvest_plant_player]
        · intro pos p p' hp hp'
          simp only [applyOp] at hp'
          unfold FarmModel.harvest_plant at hp'
          split at hp'
          · exact stage_le_of_same m.plants pos p p' hp hp'
          next pcur hl =>
            split at hp'
            next hh =>
              split at hp'
              next hmh =>
                replace hp' : plantsLookup (plantsSet m.plants pos0
                    { kind := pcur.kind, stage := regrowthStage pcur.kind })
                    pos = some p' := hp'
                rw [plantsLookup_set] at hp'
                by_cases hpq : pos = pos0
                · rw [if_pos hpq] at hp'
                  rw [hpq, hl] at hp
                  simp only [Option.some.injEq] at hp
                  rw [hl] at hp'
                  simp only [Option.map_some', Option.some.injEq] at hp'
                  rw [← hp', ← hp]
                  show regrowthStage pcur.kind ≤ pcur.stage
                  have hsm : pcur.stage = maxStage pcur.kind := by
                    unfold Plant.harvestable at hh
                    simpa using hh
                  rw [hsm]
                  exact regrowthStage_le_maxStage pcur.kind
                · rw [if_neg hpq] at hp'
                  exact stage_le_of_same m.plants pos p p' hp hp'
              next hmh =>
                replace hp' : plantsLookup (plantsErase m.plants pos0) pos
                    = some p' := hp'
                rw [plantsLookup_erase] at hp'
                by_cases hpq : pos = pos0
                · rw [if_pos hpq] at hp'
                  simp at hp'
                · rw [if_neg hpq] at hp'
                  exact stage_le_of_same m.plants pos p p' hp hp'
            next hh => exact stage_le_of_same m.plants pos p p' hp hp'
    | buy name price =>
        constructor
        · simp only [applyOp]
          have he : (m.player.buy name price).2.energy = m.player.energy := by
            unfold Player.buy
            split <;> rfl
          exact le_of_eq he
        · intro pos p p' hp hp'
          exact stage_le_of_same m.plants pos p p' hp hp'
    | sell name price =>
        constructor
        · simp only [applyOp]
          have he : (m.player.sell name price).2.energy = m.player.energy := by
            unfold Player.sell
            split <;> rfl
          exact le_of_eq he
        · intro pos p p' hp hp'
          exact stage_le_of_same m.plants pos p p' hp hp'
    | selectItem name =>
        constructor
        · exact le_refl _
        · intro pos p p' hp hp'
          exact stage_le_of_same m.plants pos p p' hp hp'
    | addItem name qty =>
        constructor
        · exact le_refl _
        · intro pos p p' hp hp'
          exact stage_le_of_same m.plants pos p p' hp hp'
    | removeItem name qty =>
        constructor
        · exact le_refl _
        · intro pos p p' hp hp'
          exact stage_le_of_same m.plants pos p p' hp hp'

/-- Witness for C3: the till operation differs from the day-advance, does
not raise energy, and leaves the ripe potato's stage unchanged. -/
theorem new_day_sole_growth_and_reset_witness :
    Op.till (0, 0) ≠ Op.newDay ∧
    (applyOp ripePotatoState (Op.till (0, 0))).player.energy ≤
      ripePotatoState.player.energy ∧
    plantsLookup ripePotatoState.plants (0, 0) =
      some { kind := .potato, stage := 5 } ∧
    plantsLookup (applyOp ripePotatoState (Op.till (0, 0))).plants (0, 0) =
      some { kind := .potato, stage := 5 } ∧
    ({ kind := .potato, stage := 5 } : Plant).stage ≤
      ({ kind := .potato, stage := 5 } : Plant).stage :=
  ⟨by decide,
   (new_day_sole_growth_and_reset.2.2 ripePotatoState (Op.till (0, 0))
      (by decide)).1,
   by rfl, by rfl,
   (new_day_sole_growth_and_reset.2.2 ripePotatoState (Op.till (0, 0))
      (by decide)).2 (0, 0) _ _ (by rfl) (by rfl)⟩

/-- C5: in every state reachable from a fresh model by any sequence of
operations of the model's mutating surface, every key of the plant map
refers to a position whose tile is tilled soil; and a successful
`untill_soil` on a position removes the plant stored there, so the
invariant is preserved by every mutating operation. -/
theorem plants_only_on_tilled_soil :
    (∀ (map0 : FarmMap) (ops : List Op),
        plantsOnTilled (applyOps (FarmModel.init map0) ops)) ∧
    (∀ (m : FarmModel) (pos : Nat × Nat), (m.untill_soil pos).1 = true →
        plantsLookup (m.untill_soil pos).2.plants pos = none) := by
  constructor
  · intro map0 ops
    apply plantsOnTilled_applyOps
    intro e he
    simp [FarmModel.init] at he
  · intro m pos hsucc
    by_cases hc : UNTILL_COST ≤ m.player.energy ∧ tileAt m.map pos = some SOIL
    · unfold FarmModel.untill_soil
      rw [if_pos hc]
      simp [plantsLookup_erase]
    · unfold FarmModel.untill_soil at hsucc
      rw [if_neg hc] at hsucc
      simp at hsucc

/-- Witness for C5: a tilled-then-planted cell keeps the invariant, and a
successful untill on the ripe-potato state removes the plant. -/
theorem plants_only_on_tilled_soil_witness :
    plantsOnTilled (applyOps (FarmModel.init [['U']])
      [Op.till (0, 0), Op.addPlant (0, 0) { kind := .potato, stage := 0 }]) ∧
    (ripePotatoState.untill_soil (0, 0)).1 = true ∧
    plantsLookup (ripePotatoState.untill_soil (0, 0)).2.plants (0, 0) = none :=
  ⟨plants_only_on_tilled_soil.1 [['U']] _, by decide,
   plants_only_on_tilled_soil.2 ripePotatoState (0, 0) (by decide)⟩

/-- C7: the controller's `select_item` sets the player's selected item to
the given name unconditionally — for any string, regardless of the
inventory, and without touching the inventory. -/
theorem select_item_unconditional (m : FarmModel) (item_name : String) :
    (select_item m item_name).player.selected = some item_name ∧
    (select_item m item_name).player.inventory = m.player.inventory :=
  ⟨rfl, rfl⟩

/-- C8: a keypress whose keysym is none of the nine handled keys leaves
the whole model state unchanged. -/
theorem handle_keypress_ignores_unknown_keys (m : FarmModel) (keysym : String)
    (h : keysym ∉ ["w", "a", "s", "d", "t", "u", "p", "r", "h"]) :
    handle_keypress m keysym = .ok m := by
  simp only [List.mem_cons, List.not_mem_nil, or_false, not_or] at h
  obtain ⟨hw, ha, hs, hd, ht, hu, hp, hr, hh⟩ := h
  unfold handle_keypress
  rw [if_neg hw, if_neg ha, if_neg hs, if_neg hd, if_neg ht, if_neg hu,
      if_neg hp, if_neg hr, if_neg hh]

/-- Witness for C8 at the keysym `x`. -/
theorem handle_keypress_ignores_unknown_keys_witness :
    "x" ∉ ["w", "a", "s", "d", "t", "u", "p", "r", "h"] ∧
      handle_keypress (seedState 5) "x" = .ok (seedState 5) :=
  ⟨by decide,
   handle_keypress_ignores_unknown_keys (seedState 5) "x" (by decide)⟩

/-- C10: after `ItemView.update`, the frame and label backgrounds are the
selected colour exactly when the amount is positive and the item is
selected, the plain inventory colour exactly when the amount is positive
and the item is not selected, and the empty colour exactly when the
amount is non-positive — a selected item with amount 0 shows the empty
colour. -/
theorem itemview_update_colours (iv : ItemView) (amount : Int)
    (selected : Bool) :
    ((iv.update amount selected).frame_bg = INVENTORY_SELECTED_COLOUR ↔
        0 < amount ∧ selected = true) ∧
    ((iv.update amount selected).label_bg = INVENTORY_SELECTED_COLOUR ↔
        0 < amount ∧ selected = true) ∧
    ((iv.update amount selected).frame_bg = INVENTORY_COLOUR ↔
        0 < amount ∧ selected = false) ∧
    ((iv.update amount selected).label_bg = INVENTORY_COLOUR ↔
        0 < amount ∧ selected = false) ∧
    ((iv.update amount selected).frame_bg = INVENTORY_EMPTY_COLOUR ↔
        amount ≤ 0) ∧
    ((iv.update amount selected).label_bg = INVENTORY_EMPTY_COLOUR ↔
        amount ≤ 0) := by
  cases selected <;> by_cases hp : 0 < amount <;>
    simp [ItemView.update, hp, INVENTORY_COLOUR, INVENTORY_SELECTED_COLOUR,
      INVENTORY_EMPTY_COLOUR] <;> omega

/-- C6: the unguarded `BUY_PRICES[item_name]` lookup in `buy_item` cannot
fail for any item that has a Buy button (the button exists only for keys
of `BUY_PRICES`), and the `SELL_PRICES[item_name]` lookups in `sell_item`
and in the `ItemView` label never fail for the items the game creates
views for, since the sell table covers every item of `ITEMS`. -/
theorem price_lookups_within_tables :
    (∀ (m : FarmModel) (item : String), ItemView.hasBuyButton item = true →
        (buy_item m item).isSome) ∧
    (∀ item ∈ ITEMS, (priceLookup SELL_PRICES item).isSome) ∧
    (∀ (m : FarmModel), ∀ item ∈ ITEMS, (sell_item m item).isSome) ∧
    (∀ item ∈ ITEMS, (ItemView.sellPriceLabel item).isSome) := by
  refine ⟨?_, ?_, ?_, ?_⟩
  · intro m item h
    rw [ItemView.hasBuyButton, priceHasKey_eq_isSome] at h
    unfold buy_item
    cases hl : priceLookup BUY_PRICES item with
    | none => rw [hl] at h; simp at h
    | some price => simp
  · intro item h
    fin_cases h <;> decide
  · intro m item h
    have hs : (priceLookup SELL_PRICES item).isSome := by
      fin_cases h <;> decide
    unfold sell_item
    cases hl : priceLookup SELL_PRICES item with
    | none => rw [hl] at hs; simp at hs
    | some price => simp
  · intro item h
    rw [ItemView.sellPriceLabel]
    fin_cases h <;> decide

/-- Witness for C6 at concrete items. -/
theorem price_lookups_within_tables_witness :
    ItemView.hasBuyButton "Potato Seed" = true ∧
    (buy_item (seedState 5) "Potato Seed").isSome ∧
    "Potato" ∈ ITEMS ∧
    (priceLookup SELL_PRICES "Potato").isSome ∧
    (sell_item (seedState 5) "Potato").isSome ∧
    (ItemView.sellPriceLabel "Potato").isSome :=
  ⟨by decide,
   price_lookups_within_tables.1 (seedState 5) "Potato Seed" (by decide),
   by decide,
   price_lookups_within_tables.2.1 "Potato" (by decide),
   price_lookups_within_tables.2.2.1 (seedState 5) "Potato" (by decide),
   price_lookups_within_tables.2.2.2 "Potato" (by decide)⟩
